import Mathlib

/-!
# Extension server: health sub-protocol and the `Any` envelope helper

A shallow embedding of `internal/extensionserver/extensionserver.go`.

* Go pointers that may be nil (`*HealthCheckRequest`, `*anypb.Any`, `error`) are `Option`s.
* `uint32` values are natural numbers; a conversion to `uint32` is `% 2 ^ 32`.
* A method with a pointer receiver returns, next to its Go results, the receiver as it is
  after the call (explicit state passing).
* Types and functions of other modules (`client.Client`, `logr.Logger`, `context.Context`,
  `proto.Message`, `proto.Marshal`, `Logger.WithName`) are parameters.
* `proto.Marshal` is also modelled on one type of message, `google.protobuf.Struct` with
  `bool_value`s, with the iteration order of its Go map as an argument.
-/

namespace extensionserver

/-! ## Library data the source uses -/

/-- The gRPC status codes of `google.golang.org/grpc/codes`, in numeric order from 0. -/
inductive Code where
  | OK
  | Canceled
  | Unknown
  | InvalidArgument
  | DeadlineExceeded
  | NotFound
  | AlreadyExists
  | PermissionDenied
  | ResourceExhausted
  | FailedPrecondition
  | Aborted
  | OutOfRange
  | Unimplemented
  | Internal
  | Unavailable
  | DataLoss
  | Unauthenticated
  deriving DecidableEq, Repr

/-- Name of a code as printed by `Code.String`. -/
def Code.String : Code → String
  | .OK => "OK"
  | .Canceled => "Canceled"
  | .Unknown => "Unknown"
  | .InvalidArgument => "InvalidArgument"
  | .DeadlineExceeded => "DeadlineExceeded"
  | .NotFound => "NotFound"
  | .AlreadyExists => "AlreadyExists"
  | .PermissionDenied => "PermissionDenied"
  | .ResourceExhausted => "ResourceExhausted"
  | .FailedPrecondition => "FailedPrecondition"
  | .Aborted => "Aborted"
  | .OutOfRange => "OutOfRange"
  | .Unimplemented => "Unimplemented"
  | .Internal => "Internal"
  | .Unavailable => "Unavailable"
  | .DataLoss => "DataLoss"
  | .Unauthenticated => "Unauthenticated"

/-- A non-nil Go `error` value. A nil `error` is `none : Option GoError`.
`plain` is an error of some other module, known by its text; `wrapError` is what
`fmt.Errorf` builds for a format with one `%w`; `statusError` is what `status.Error`
builds. -/
inductive GoError where
  | plain (text : String)
  | wrapError (msg : String) (err : GoError)
  | statusError (code : Code) (message : String)
  deriving DecidableEq, Repr

/-- Text of an error, the Go method `Error()`. -/
def GoError.Error : GoError → String
  | .plain text => text
  | .wrapError msg _ => msg
  | .statusError code message =>
    "rpc error: code = " ++ code.String ++ " desc = " ++ message

/-- The Go method `Unwrap()`, as `errors.Unwrap` sees it: the wrapped cause, if any. -/
def GoError.Unwrap : GoError → Option GoError
  | .wrapError _ err => some err
  | _ => none

/-- Model of `fmt.Errorf(text + "%w", err)` for a literal `text` without verbs and a
non-nil `err`: the message is `text` followed by the text of `err`, and the result wraps
`err`. -/
def fmt.Errorf (text : String) (err : GoError) : GoError :=
  .wrapError (text ++ err.Error) err

/-- Model of `status.Error(c, msg)`: nil for the code `OK`, otherwise a status error that
carries the code and the message. -/
def status.Error (c : Code) (msg : String) : Option GoError :=
  if c = Code.OK then none else some (.statusError c msg)

/-- Status code carried by a non-nil error: the code of a status error (also through
wrapping), `Unknown` for any other error. -/
def GoError.statusCode : GoError → Code
  | .statusError c _ => c
  | .wrapError _ e => e.statusCode
  | .plain _ => .Unknown

/-- Model of `status.Code(err)`: `OK` for nil, otherwise the status code the error
carries. -/
def status.Code (err : Option GoError) : extensionserver.Code :=
  match err with
  | none => .OK
  | some e => e.statusCode

/-- The enumeration `grpc_health_v1.HealthCheckResponse_ServingStatus`, in numeric order
from 0. -/
inductive ServingStatus where
  | UNKNOWN
  | SERVING
  | NOT_SERVING
  | SERVICE_UNKNOWN
  deriving DecidableEq, Repr

/-- The message `grpc_health_v1.HealthCheckRequest`. -/
structure HealthCheckRequest where
  Service : String
  deriving DecidableEq, Repr

/-- The message `grpc_health_v1.HealthCheckResponse`. -/
structure HealthCheckResponse where
  Status : ServingStatus
  deriving DecidableEq, Repr

/-- The message `grpc_health_v1.HealthListRequest`, which has no fields. -/
structure HealthListRequest where
  deriving DecidableEq, Repr

/-- A Go `map[string]*HealthCheckResponse` as the list of its entries, keys distinct. -/
abbrev StatusMap := List (String × HealthCheckResponse)

/-- Map indexing `m[k]`: the value stored at `k`, if the key is present. -/
def StatusMap.get (m : StatusMap) (k : String) : Option HealthCheckResponse :=
  (m.find? (fun kv => kv.1 == k)).map Prod.snd

/-- The keys of a map. -/
def StatusMap.keys (m : StatusMap) : List String :=
  m.map Prod.fst

/-- The message `grpc_health_v1.HealthListResponse`. -/
structure HealthListResponse where
  Statuses : StatusMap
  deriving DecidableEq, Repr

/-- The server side of a `Watch` stream, `grpc_health_v1.Health_WatchServer`, as the
responses sent on it so far, oldest first. -/
structure Health_WatchServer where
  sent : List HealthCheckResponse
  deriving DecidableEq, Repr

/-- A byte sequence (`[]byte`). A nil slice and an empty slice are both `[]`. -/
abbrev Bytes := List UInt8

/-- The message `anypb.Any`. -/
structure Any where
  TypeUrl : String
  Value : Bytes
  deriving DecidableEq, Repr

/-- Conversion of an integer constant to `uint32`. -/
def uint32 (n : Nat) : Nat := n % 2 ^ 32

/-! ## The source -/

/-- The struct `Server`. The embedded `UnimplementedEnvoyGatewayExtensionServer` is an
empty struct. `Client` and `Logger` stand for `client.Client` and `logr.Logger`. -/
structure Server (Client Logger : Type) where
  UnimplementedEnvoyGatewayExtensionServer : Unit
  log : Logger
  k8sClient : Client
  udsPath : String
  isStandAloneMode : Bool
  extProcGrpcMaxRecvMsgSize : Nat

/-- The constant `serverName`. -/
def serverName : String := "envoy-gateway-extension-server"

/-- The constant `DefaultExtProcGrpcMaxRecvMsgSize`. -/
def DefaultExtProcGrpcMaxRecvMsgSize : Nat := 16 * 1024 * 1024

/-- The function `New`. `WithName` is the method `logr.Logger.WithName`. The argument
`extProcGrpcMaxRecvMsgSize` is a `uint32`. The result is never a nil pointer. -/
def New {Client Logger : Type} (WithName : Logger → String → Logger)
    (k8sClient : Client) (logger : Logger) (udsPath : String) (isStandAloneMode : Bool)
    (extProcGrpcMaxRecvMsgSize : Nat) : Server Client Logger :=
  let logger := WithName logger serverName
  let extProcGrpcMaxRecvMsgSize :=
    if extProcGrpcMaxRecvMsgSize = 0 then uint32 DefaultExtProcGrpcMaxRecvMsgSize
    else extProcGrpcMaxRecvMsgSize
  { UnimplementedEnvoyGatewayExtensionServer := ()
    log := logger
    k8sClient := k8sClient
    udsPath := udsPath
    isStandAloneMode := isStandAloneMode
    extProcGrpcMaxRecvMsgSize := extProcGrpcMaxRecvMsgSize }

/-- The method `Server.Check`: the response, the error, and the receiver after the call. -/
def Server.Check {Client Logger Context : Type} (s : Server Client Logger)
    (_ : Context) (_ : Option HealthCheckRequest) :
    (Option HealthCheckResponse × Option GoError) × Server Client Logger :=
  ((some { Status := ServingStatus.SERVING }, none), s)

/-- The method `Server.Watch`: the error, the stream after the call, and the receiver
after the call. -/
def Server.Watch {Client Logger : Type} (s : Server Client Logger)
    (_ : Option HealthCheckRequest) (stream : Health_WatchServer) :
    (Option GoError × Health_WatchServer) × Server Client Logger :=
  ((status.Error Code.Unimplemented "Watch is not implemented", stream), s)

/-- The method `Server.List`: the response, the error, and the receiver after the call. -/
def Server.List {Client Logger Context : Type} (s : Server Client Logger)
    (_ : Context) (_ : Option HealthListRequest) :
    (Option HealthListResponse × Option GoError) × Server Client Logger :=
  ((some { Statuses := [(serverName, { Status := ServingStatus.SERVING })] }, none), s)

/-- The constant `envoyAPIPrefix` of `toAny`. -/
def envoyAPIPrefix : String := "type.googleapis.com/"

/-- The function `toAny`. `Message` is the type of the (non-nil) `proto.Message` values,
`Marshal` is `proto.Marshal` with its two results, and `FullName msg` is
`msg.ProtoReflect().Descriptor().FullName()`. -/
def toAny {Message : Type} (Marshal : Message → Bytes × Option GoError)
    (FullName : Message → String) (msg : Message) : Option Any × Option GoError :=
  match Marshal msg with
  | (_, some err) => (none, some (fmt.Errorf "failed to marshal message to Any: " err))
  | (b, none) => (some { TypeUrl := envoyAPIPrefix ++ FullName msg, Value := b }, none)

/-- One call of a health operation on a server, with its arguments. -/
inductive Call (Context : Type) where
  | check (ctx : Context) (req : Option HealthCheckRequest)
  | watch (req : Option HealthCheckRequest) (stream : Health_WatchServer)
  | list (ctx : Context) (req : Option HealthListRequest)

/-- The server after one call. -/
def step {Client Logger Context : Type} (s : Server Client Logger) :
    Call Context → Server Client Logger
  | .check ctx req => (s.Check ctx req).2
  | .watch req stream => (s.Watch req stream).2
  | .list ctx req => (s.List ctx req).2

/-- The server after a sequence of calls, made in order. -/
def run {Client Logger Context : Type} (s : Server Client Logger)
    (calls : List (Call Context)) : Server Client Logger :=
  calls.foldl step s

/-! ## A model of `proto.Marshal` on one type of message -/

/-- Base-128 varint of the protobuf wire format, least significant group first, at most
`fuel` bytes. -/
def appendVarint : Nat → Nat → Bytes
  | 0, _ => []
  | fuel + 1, v =>
    if v < 128 then [UInt8.ofNat v]
    else UInt8.ofNat (v % 128 + 128) :: appendVarint fuel (v / 128)

/-- Varint of a length or tag below `2 ^ 64`, which takes at most ten bytes. -/
def varint (v : Nat) : Bytes := appendVarint 10 v

/-- The UTF-8 bytes of a string. -/
def utf8 (s : String) : Bytes := s.data.flatMap String.utf8EncodeChar

/-- A `structpb.Struct` (`google.protobuf.Struct`) all of whose values are `bool_value`s:
the Go map `Fields` as the list of its entries, keys distinct. -/
structure Struct where
  Fields : List (String × Bool)
  deriving DecidableEq, Repr

/-- Wire form of a `google.protobuf.Value` holding a `bool_value` (field 4, varint). -/
def marshalBoolValue (v : Bool) : Bytes :=
  [0x20, if v then 1 else 0]

/-- Wire form of one entry of `Struct.fields` (field 1, length-delimited): the entry
message holds the key (field 1, string) and the value (field 2, message). -/
def marshalFieldsEntry (k : String) (v : Bool) : Bytes :=
  let key := utf8 k
  let value := marshalBoolValue v
  let entry := [0x0A] ++ varint key.length ++ key ++ [0x12] ++ varint value.length ++ value
  [0x0A] ++ varint entry.length ++ entry

/-- Model of `proto.Marshal`, called with the default options as `toAny` does, on a
`Struct` of `bool_value`s whose encoding is shorter than 2 GiB: the entries of the map are
written in the order in which the Go runtime iterates over the map during this call, and no
error is returned. `iter` is that order: it maps the entries to a permutation of them. -/
def Struct.Marshal (iter : List (String × Bool) → List (String × Bool)) (m : Struct) :
    Bytes × Option GoError :=
  ((iter m.Fields).flatMap (fun kv => marshalFieldsEntry kv.1 kv.2), none)

/-- The full name of the type of a `Struct`. -/
def Struct.FullName (_ : Struct) : String := "google.protobuf.Struct"

/-! ## Helper lemmas -/

/-- The text of the constant `envoyAPIPrefix`. -/
theorem envoyAPIPrefix_eq : envoyAPIPrefix = "type.googleapis.com/" := rfl

/-- Successful serialization: `toAny` returns the envelope and a nil error. -/
theorem toAny_of_marshal_ok {Message : Type} (Marshal : Message → Bytes × Option GoError)
    (FullName : Message → String) (msg : Message) (b : Bytes)
    (h : Marshal msg = (b, none)) :
    toAny Marshal FullName msg
      = (some { TypeUrl := envoyAPIPrefix ++ FullName msg, Value := b }, none) := by
  simp [toAny, h]

/-- Failed serialization: `toAny` returns a nil envelope and the wrapping error. -/
theorem toAny_of_marshal_err {Message : Type} (Marshal : Message → Bytes × Option GoError)
    (FullName : Message → String) (msg : Message) (b : Bytes) (e : GoError)
    (h : Marshal msg = (b, some e)) :
    toAny Marshal FullName msg
      = (none, some (fmt.Errorf "failed to marshal message to Any: " e)) := by
  simp [toAny, h]

/-- No health operation changes the server. -/
theorem step_eq {Client Logger Context : Type} (s : Server Client Logger)
    (c : Call Context) : step s c = s := by
  cases c <;> rfl

/-- A sequence of health operations leaves the server as it was. -/
theorem run_eq {Client Logger Context : Type} (s : Server Client Logger)
    (calls : List (Call Context)) : run s calls = s := by
  induction calls generalizing s with
  | nil => rfl
  | cons c cs ih =>
    have h := ih s
    simp only [run, List.foldl_cons, step_eq] at h ⊢
    exact h

/-! ## Construction -/

/-- C1: `New` called with `extProcGrpcMaxRecvMsgSize = 0` returns a server whose
`extProcGrpcMaxRecvMsgSize` is `DefaultExtProcGrpcMaxRecvMsgSize`, which is
`16 * 1024 * 1024 = 16777216` and is below `2 ^ 32`, so its conversion to `uint32` does not
wrap around. This holds for every client, logger, path and standalone flag. -/
theorem New_zero_gives_default {Client Logger : Type} (WithName : Logger → String → Logger)
    (k8sClient : Client) (logger : Logger) (udsPath : String) (isStandAloneMode : Bool) :
    (New WithName k8sClient logger udsPath isStandAloneMode 0).extProcGrpcMaxRecvMsgSize
        = DefaultExtProcGrpcMaxRecvMsgSize
      ∧ DefaultExtProcGrpcMaxRecvMsgSize = 16 * 1024 * 1024
      ∧ DefaultExtProcGrpcMaxRecvMsgSize = 16777216
      ∧ DefaultExtProcGrpcMaxRecvMsgSize < 2 ^ 32
      ∧ uint32 DefaultExtProcGrpcMaxRecvMsgSize = DefaultExtProcGrpcMaxRecvMsgSize := by
  refine ⟨?_, rfl, ?_, ?_, ?_⟩
  · simp [New, uint32, DefaultExtProcGrpcMaxRecvMsgSize]
  · decide
  · decide
  · decide

/-- C2: for every `uint32` value `N > 0`, `New` called with
`extProcGrpcMaxRecvMsgSize = N` returns a server whose `extProcGrpcMaxRecvMsgSize` is
exactly `N` (and so still a `uint32`), whatever the other arguments are. -/
theorem New_positive_keeps_value {Client Logger : Type}
    (WithName : Logger → String → Logger) (k8sClient : Client) (logger : Logger)
    (udsPath : String) (isStandAloneMode : Bool) (N : Nat) (hu : N < 2 ^ 32) (hN : 0 < N) :
    (New WithName k8sClient logger udsPath isStandAloneMode N).extProcGrpcMaxRecvMsgSize = N
      ∧ (New WithName k8sClient logger udsPath isStandAloneMode N).extProcGrpcMaxRecvMsgSize
          < 2 ^ 32 := by
  have h0 : N ≠ 0 := Nat.pos_iff_ne_zero.mp hN
  have hfield : (New WithName k8sClient logger udsPath isStandAloneMode
      N).extProcGrpcMaxRecvMsgSize = N := by
    simp [New, h0]
  refine ⟨hfield, ?_⟩
  rw [hfield]
  exact hu

/-- Witness of C2 at the largest `uint32`, `N = 2 ^ 32 - 1`. -/
theorem New_positive_keeps_value_witness :
    (4294967295 < 2 ^ 32 ∧ 0 < 4294967295) ∧
      ((New (fun (l : String) n => l ++ "/" ++ n) () "root" "/tmp/uds.sock" true
          4294967295).extProcGrpcMaxRecvMsgSize = 4294967295
        ∧ (New (fun (l : String) n => l ++ "/" ++ n) () "root" "/tmp/uds.sock" true
          4294967295).extProcGrpcMaxRecvMsgSize < 2 ^ 32) :=
  ⟨⟨by decide, by decide⟩,
    New_positive_keeps_value (fun (l : String) n => l ++ "/" ++ n) () "root" "/tmp/uds.sock"
      true 4294967295 (by decide) (by decide)⟩

/-- C9: for every argument of `New`, zero included, the returned server has
`extProcGrpcMaxRecvMsgSize > 0`; and after any sequence of `Check`, `Watch` and `List`
calls the server is the one `New` returned, so the field is still greater than 0. -/
theorem maxRecvMsgSize_pos_invariant {Client Logger Context : Type}
    (WithName : Logger → String → Logger) (k8sClient : Client) (logger : Logger)
    (udsPath : String) (isStandAloneMode : Bool) (extProcGrpcMaxRecvMsgSize : Nat)
    (calls : List (Call Context)) :
    0 < (New WithName k8sClient logger udsPath isStandAloneMode
          extProcGrpcMaxRecvMsgSize).extProcGrpcMaxRecvMsgSize
      ∧ run (New WithName k8sClient logger udsPath isStandAloneMode
          extProcGrpcMaxRecvMsgSize) calls
        = New WithName k8sClient logger udsPath isStandAloneMode extProcGrpcMaxRecvMsgSize
      ∧ 0 < (run (New WithName k8sClient logger udsPath isStandAloneMode
          extProcGrpcMaxRecvMsgSize) calls).extProcGrpcMaxRecvMsgSize := by
  have hpos : 0 < (New WithName k8sClient logger udsPath isStandAloneMode
      extProcGrpcMaxRecvMsgSize).extProcGrpcMaxRecvMsgSize := by
    by_cases h : extProcGrpcMaxRecvMsgSize = 0
    · simp [New, h, uint32, DefaultExtProcGrpcMaxRecvMsgSize]
    · simpa [New, h] using Nat.pos_of_ne_zero h
  refine ⟨hpos, run_eq _ calls, ?_⟩
  rw [run_eq]
  exact hpos

/-! ## Health sub-protocol -/

/-- C3: for every server, context and request (nil, empty service name or any other
name), `Check` returns a response with status `SERVING` and a nil error; the result is the
same for any other server, context and request. -/
theorem Check_always_serving {Client Logger Context : Type} (s s' : Server Client Logger)
    (ctx ctx' : Context) (req req' : Option HealthCheckRequest) :
    (s.Check ctx req).1 = (some { Status := ServingStatus.SERVING }, none)
      ∧ (s.Check ctx req).1 = (s'.Check ctx' req').1 :=
  ⟨rfl, rfl⟩

/-- C4: for every server, request and stream, `Watch` returns a non-nil error, the
status error with code `Unimplemented` and message "Watch is not implemented", and the
stream holds after the call exactly what it held before: nothing is sent. -/
theorem Watch_unimplemented {Client Logger : Type} (s : Server Client Logger)
    (req : Option HealthCheckRequest) (stream : Health_WatchServer) :
    (s.Watch req stream).1.1
        = some (GoError.statusError Code.Unimplemented "Watch is not implemented")
      ∧ (s.Watch req stream).1.1 ≠ none
      ∧ status.Code (s.Watch req stream).1.1 = Code.Unimplemented
      ∧ (s.Watch req stream).1.2 = stream
      ∧ (s.Watch req stream).1.2.sent = stream.sent := by
  refine ⟨rfl, ?_, rfl, rfl, rfl⟩
  simp [Server.Watch, status.Error]

/-- C5: for every server, context and request, `List` returns a nil error and a
response whose `Statuses` map has the single key `serverName`, the string
"envoy-gateway-extension-server", with status `SERVING` stored there; every other name is
absent from the map. -/
theorem List_single_entry {Client Logger Context : Type} (s : Server Client Logger)
    (ctx : Context) (req : Option HealthListRequest) :
    ∃ resp : HealthListResponse,
      (s.List ctx req).1 = (some resp, none)
        ∧ resp.Statuses.keys = ["envoy-gateway-extension-server"]
        ∧ serverName = "envoy-gateway-extension-server"
        ∧ resp.Statuses.length = 1
        ∧ resp.Statuses.get serverName = some { Status := ServingStatus.SERVING }
        ∧ ∀ k : String, k ≠ serverName → resp.Statuses.get k = none := by
  refine ⟨_, rfl, rfl, rfl, rfl, ?_, ?_⟩
  · simp [StatusMap.get]
  · intro k hk
    have hk' : (serverName == k) = false := by
      simpa using fun h : serverName = k => hk h.symm
    simp [StatusMap.get, List.find?, hk']

/-! ## Envelope helper -/

/-- C6: when serializing `msg` succeeds, `toAny` returns a nil error and an envelope
whose `TypeUrl` is "type.googleapis.com/" followed by the full name of the type of `msg`:
the `TypeUrl` starts with those 20 characters and what follows them is the type name. -/
theorem toAny_typeUrl {Message : Type} (Marshal : Message → Bytes × Option GoError)
    (FullName : Message → String) (msg : Message) (b : Bytes)
    (h : Marshal msg = (b, none)) :
    ∃ a : Any, toAny Marshal FullName msg = (some a, none)
      ∧ a.TypeUrl = "type.googleapis.com/" ++ FullName msg
      ∧ "type.googleapis.com/".data <+: a.TypeUrl.data
      ∧ a.TypeUrl.data.drop "type.googleapis.com/".length = (FullName msg).data
      ∧ a.TypeUrl.length = 20 + (FullName msg).length := by
  refine ⟨_, toAny_of_marshal_ok Marshal FullName msg b h, ?_, ?_, ?_, ?_⟩
  · rw [envoyAPIPrefix_eq]
  · simp only [envoyAPIPrefix_eq, String.data_append]
    exact List.prefix_append _ _
  · simp only [envoyAPIPrefix_eq, String.data_append, String.length]
    exact List.drop_left _ _
  · simp only [envoyAPIPrefix_eq, String.length_append]
    rfl

/-- Witness of C6: a message of type `envoy.config.cluster.v3.Cluster` that serializes
to five bytes. -/
theorem toAny_typeUrl_witness :
    (fun _ : Unit => (([10, 3, 102, 111, 111] : Bytes), (none : Option GoError))) ()
        = ([10, 3, 102, 111, 111], none)
      ∧ ∃ a : Any,
        toAny (fun _ : Unit => (([10, 3, 102, 111, 111] : Bytes), (none : Option GoError)))
            (fun _ => "envoy.config.cluster.v3.Cluster") () = (some a, none)
          ∧ a.TypeUrl = "type.googleapis.com/" ++ (fun _ : Unit =>
              "envoy.config.cluster.v3.Cluster") ()
          ∧ "type.googleapis.com/".data <+: a.TypeUrl.data
          ∧ a.TypeUrl.data.drop "type.googleapis.com/".length
              = ((fun _ : Unit => "envoy.config.cluster.v3.Cluster") ()).data
          ∧ a.TypeUrl.length
              = 20 + ((fun _ : Unit => "envoy.config.cluster.v3.Cluster") ()).length :=
  ⟨rfl, toAny_typeUrl _ (fun _ => "envoy.config.cluster.v3.Cluster") () _ rfl⟩

/-- C10: when serializing `msg` succeeds with bytes `b`, `toAny` returns a nil error and
the envelope made of "type.googleapis.com/" followed by the type name, and of `b` itself:
`Value` is `b`, of the same length; when `b` is empty, `Value` is empty. -/
theorem toAny_value {Message : Type} (Marshal : Message → Bytes × Option GoError)
    (FullName : Message → String) (msg : Message) (b : Bytes)
    (h : Marshal msg = (b, none)) :
    toAny Marshal FullName msg
        = (some { TypeUrl := "type.googleapis.com/" ++ FullName msg, Value := b }, none)
      ∧ (toAny Marshal FullName msg).1.map Any.Value = some b
      ∧ (toAny Marshal FullName msg).1.map (fun a => a.Value.length) = some b.length
      ∧ (toAny Marshal FullName msg).2 = none := by
  have hr := toAny_of_marshal_ok Marshal FullName msg b h
  rw [envoyAPIPrefix_eq] at hr
  simp [hr]

/-- Witness of C10: a message of type `google.protobuf.Empty`, which serializes to the
empty byte sequence. -/
theorem toAny_value_witness :
    (fun _ : Unit => (([] : Bytes), (none : Option GoError))) () = ([], none)
      ∧ (toAny (fun _ : Unit => (([] : Bytes), (none : Option GoError)))
            (fun _ => "google.protobuf.Empty") ()
          = (some { TypeUrl := "type.googleapis.com/" ++ (fun _ : Unit =>
              "google.protobuf.Empty") (), Value := [] }, none)
        ∧ (toAny (fun _ : Unit => (([] : Bytes), (none : Option GoError)))
            (fun _ => "google.protobuf.Empty") ()).1.map Any.Value = some []
        ∧ (toAny (fun _ : Unit => (([] : Bytes), (none : Option GoError)))
            (fun _ => "google.protobuf.Empty") ()).1.map (fun a => a.Value.length)
              = some ([] : Bytes).length
        ∧ (toAny (fun _ : Unit => (([] : Bytes), (none : Option GoError)))
            (fun _ => "google.protobuf.Empty") ()).2 = none) :=
  ⟨rfl, toAny_value _ (fun _ => "google.protobuf.Empty") () [] rfl⟩

/-- C7: if serializing `msg` fails with cause `e`, `toAny` returns a nil envelope and
a non-nil error whose text is "failed to marshal message to Any: " followed by the text of
`e` and whose `Unwrap` is `e`. `toAny` returns an error exactly when serialization failed,
and it never returns an envelope together with an error. -/
theorem toAny_error {Message : Type} (Marshal : Message → Bytes × Option GoError)
    (FullName : Message → String) (msg : Message) :
    (∀ (b : Bytes) (e : GoError), Marshal msg = (b, some e) →
        ∃ w : GoError, toAny Marshal FullName msg = (none, some w)
          ∧ w.Error = "failed to marshal message to Any: " ++ e.Error
          ∧ w.Unwrap = some e)
      ∧ ((toAny Marshal FullName msg).2 ≠ none ↔ (Marshal msg).2 ≠ none)
      ∧ ¬ ((toAny Marshal FullName msg).1 ≠ none ∧ (toAny Marshal FullName msg).2 ≠ none) := by
  refine ⟨?_, ?_, ?_⟩
  · intro b e h
    exact ⟨_, toAny_of_marshal_err Marshal FullName msg b e h, rfl, rfl⟩
  · rcases hm : Marshal msg with ⟨b, _ | e⟩
    · simp [toAny_of_marshal_ok Marshal FullName msg b hm]
    · simp [toAny_of_marshal_err Marshal FullName msg b e hm]
  · rcases hm : Marshal msg with ⟨b, _ | e⟩
    · simp [toAny_of_marshal_ok Marshal FullName msg b hm]
    · simp [toAny_of_marshal_err Marshal FullName msg b e hm]

/-- Witness of C7: a message whose serialization fails with the error
"proto: required field not set". -/
theorem toAny_error_witness :
    (fun _ : Unit => (([] : Bytes), some (GoError.plain "proto: required field not set"))) ()
        = ([], some (GoError.plain "proto: required field not set"))
      ∧ ∃ w : GoError,
        toAny (fun _ : Unit =>
            (([] : Bytes), some (GoError.plain "proto: required field not set")))
            (fun _ => "envoy.config.route.v3.Route") () = (none, some w)
          ∧ w.Error = "failed to marshal message to Any: "
              ++ (GoError.plain "proto: required field not set").Error
          ∧ w.Unwrap = some (GoError.plain "proto: required field not set") :=
  ⟨rfl, (toAny_error _ (fun _ => "envoy.config.route.v3.Route") ()).1 [] _ rfl⟩

end extensionserver
